import Mathlib

/-!
Shallow embedding of `public/script.js` (class `SentenceApp`): a browser-side
controller for a message board.  DOM state and network traffic are made
explicit: every controller method becomes a pure function from the controller
state (plus the outcomes of the network calls it awaits) to a new state
together with the list of observable effects (requests, alerts, navigation,
confirmation dialogs) it performs, in order.
-/

namespace SentenceBoard

/-- A board post as returned by the sentence list endpoint.  `mongoId` embeds
the JSON field `_id` (used for the delete button's `data-id`); Lean does not
accept `_id` as a field name. -/
structure Sentence where
  mongoId : String
  text : String
  name : String
  category : String
  createdAt : String
deriving Repr, DecidableEq

/-- Embeds `this.currentFilters`: the four read-query fields. -/
structure FilterState where
  category : String
  user : String
  sortBy : String
  search : String
deriving Repr, DecidableEq

/-- The initial value of `this.currentFilters` (constructor, lines 22-27),
also what `clearAllFilters` resets to. -/
def defaultFilters : FilterState :=
  { category := "all", user := "all", sortBy := "newest", search := "" }

/-- Embeds `new URLSearchParams(this.currentFilters)` (line 118): the own enumerable
properties of the filter object, in insertion order, as query pairs. -/
def sentencesQueryParams (f : FilterState) : List (String × String) :=
  [("category", f.category), ("user", f.user), ("sortBy", f.sortBy), ("search", f.search)]

/-- Observable effects of a controller method, in program order. -/
inductive Effect where
  | getRequest (path : String) (params : List (String × String))
  | postRequest (path : String) (text name category : String)
  | deleteRequest (path : String)
  | alert (msg : String)
  | navigate (path : String)
  | confirmDialog (msg : String)
deriving Repr, DecidableEq

/-- Whether an effect is a network request (any `fetch` call). -/
def Effect.isNetworkRequest : Effect → Bool
  | .getRequest _ _ => true
  | .postRequest _ _ _ _ => true
  | .deleteRequest _ => true
  | _ => false

/-- Embeds `escapeHtml` (lines 300-304): the `div.textContent` / `div.innerHTML`
round trip, which escapes the three HTML-active characters. -/
def escapeHtml (text : String) : String :=
  String.join (text.toList.map fun c =>
    if c = '&' then "&amp;"
    else if c = '<' then "&lt;"
    else if c = '>' then "&gt;"
    else String.singleton c)

/-- Embeds `getCategoryDisplayName` (lines 287-298). -/
def getCategoryDisplayName (category : String) : String :=
  if category = "thoughts" then "💭 Thoughts"
  else if category = "quotes" then "💬 Quotes"
  else if category = "stories" then "📖 Stories"
  else if category = "jokes" then "😂 Jokes"
  else if category = "questions" then "❓ Questions"
  else if category = "facts" then "🔍 Facts"
  else if category = "other" then "📌 Other"
  else category

/-- Models `new Date(createdAt).toLocaleString()` (line 231): a platform,
locale-dependent formatting of the stored timestamp; the claims never inspect
its text, so it is kept as the stored string. -/
def formatDate (createdAt : String) : String := createdAt

/-- One `<li>` produced by `renderSentences` for one sentence
(lines 227-248). -/
structure RenderedItem where
  authorHtml : String
  categoryBadge : String
  textHtml : String
  timestamp : String
  hasDeleteBtn : Bool
  deleteBtnId : String
deriving Repr, DecidableEq

/-- The list item built for `sentence` with `currentUser` the value of the
name field at render time (lines 225, 227-245); the delete button appears
exactly when `sentence.name === currentUser` (line 241). -/
def renderItem (currentUser : String) (s : Sentence) : RenderedItem :=
  { authorHtml := escapeHtml s.name
    categoryBadge := getCategoryDisplayName s.category
    textHtml := escapeHtml s.text
    timestamp := formatDate s.createdAt
    hasDeleteBtn := s.name == currentUser
    deleteBtnId := s.mongoId }

/-- The item list built by the `forEach` loop of `renderSentences`
(lines 227-248): one item per fetched sentence, in order. -/
def renderList (currentUser : String) (sentences : List Sentence) : List RenderedItem :=
  sentences.map (renderItem currentUser)

/-- The content of `this.sentencesList`. -/
inductive SentencesView where
  | initial
  | emptyState
  | items (l : List RenderedItem)
  | loadError
deriving Repr, DecidableEq

/-- Embeds `renderSentences` (lines 215-257) as a function of the current name field
and the sentence array: the fixed empty-state entry when the array is empty,
otherwise one rendered item per sentence. -/
def renderView (currentUser : String) (sentences : List Sentence) : SentencesView :=
  if sentences = [] then .emptyState else .items (renderList currentUser sentences)

/-- Models `String.prototype.trim()`: strip whitespace from both ends.
Defined on the character list so that concrete instances reduce in the
kernel. -/
def jsTrim (s : String) : String :=
  String.mk (((s.toList.dropWhile Char.isWhitespace).reverse.dropWhile
    Char.isWhitespace).reverse)

/-- Embeds `str.charAt(0).toUpperCase() + str.slice(1)` (line 276). -/
def capitalizeFirst (s : String) : String :=
  match s.toList with
  | [] => ""
  | c :: cs => String.mk (c.toUpper :: cs)

/-- The `parts` array of `renderActiveFiltersText` (lines 259-285). -/
def activeFiltersParts (f : FilterState) : List String :=
  (if f.category ≠ "all" then ["Category: **" ++ getCategoryDisplayName f.category ++ "**"] else [])
    ++ (if f.user ≠ "all" then ["User: **" ++ f.user ++ "**"] else [])
    ++ (if f.search ≠ "" ∧ jsTrim f.search ≠ ""
        then ["Search: **\"" ++ f.search ++ "\"**"] else [])
    ++ ["Sorted by: **" ++ capitalizeFirst f.sortBy ++ "**"]

/-- The controller state: the data fields of the `SentenceApp` instance plus
the DOM state it reads and writes.  `lastFetched` is a history variable (not a
field of the source object) recording the array returned by the last
successful sentence fetch; it is needed to state the rendering invariant. -/
structure AppState where
  allSentences : List Sentence
  allUsers : List String
  currentFilters : FilterState
  nameInput : String
  categorySelect : String
  sentenceInput : String
  searchInput : String
  categoryFilterValue : String
  userFilterValue : String
  sortByValue : String
  userFilterOptions : List String
  addBtnLabel : String
  addBtnDisabled : Bool
  sentencesCount : Nat
  sentencesView : SentencesView
  activeFiltersText : List String
  lastFetched : Option (List Sentence)
deriving Repr, DecidableEq

/-- The state right after the constructor runs (lines 4-33), with the form
controls at their page defaults. -/
def initState : AppState :=
  { allSentences := []
    allUsers := []
    currentFilters := defaultFilters
    nameInput := ""
    categorySelect := "thoughts"
    sentenceInput := ""
    searchInput := ""
    categoryFilterValue := "all"
    userFilterValue := "all"
    sortByValue := "newest"
    userFilterOptions := ["all"]
    addBtnLabel := "Add"
    addBtnDisabled := false
    sentencesCount := 0
    sentencesView := .initial
    activeFiltersText := []
    lastFetched := none }

/-- Outcome of an awaited `fetch` whose parsed JSON body has type `α`:
a parsed 2xx body, a non-2xx status (the `!response.ok` throw path), or a
rejected fetch. -/
inductive FetchOutcome (α : Type) where
  | ok (body : α)
  | httpError (status : Nat)
  | networkFailure
deriving Repr, DecidableEq

/-- Embeds `response.ok`: status in the 2xx range. -/
def respOk (status : Nat) : Prop := 200 ≤ status ∧ status ≤ 299

instance (status : Nat) : Decidable (respOk status) := by
  unfold respOk; infer_instance

/-- Outcome of the create or delete request as the code inspects it: a
response with its status and the `error` field of its JSON body (absent when
the body has no such field), or a rejected fetch carrying the error
message. -/
inductive RequestOutcome where
  | reply (status : Nat) (errorField : Option String)
  | networkFailure (msg : String)
deriving Repr, DecidableEq

/-- JavaScript `v || fallback` on the optional `error` field (lines 170, 205):
an absent or empty (falsy) string selects the fallback. -/
def jsOrElse (v : Option String) (fallback : String) : String :=
  match v with
  | some s => if s = "" then fallback else s
  | none => fallback

/-- Embeds `loadUsersForFilter` (lines 69-93): fetch the user list; on success store
it, rebuild the user filter options and restore the selected user; any
failure is caught and only logged. -/
def loadUsersForFilter (s : AppState) (res : FetchOutcome (List String)) :
    AppState × List Effect :=
  let eff := [Effect.getRequest "/api/sentences/users" []]
  match res with
  | .ok users =>
      ({ s with allUsers := users
                userFilterOptions := "all" :: users
                userFilterValue := s.currentFilters.user }, eff)
  | _ => (s, eff)

/-- Embeds `fetchAndRenderSentences` (lines 116-132): request the sentence list with
the current filters as query parameters; on success store and render it and
refresh the filter summary; on failure replace the list with the inline error
entry. -/
def fetchAndRenderSentences (s : AppState) (res : FetchOutcome (List Sentence)) :
    AppState × List Effect :=
  let eff := [Effect.getRequest "/api/sentences" (sentencesQueryParams s.currentFilters)]
  match res with
  | .ok sentences =>
      ({ s with allSentences := sentences
                lastFetched := some sentences
                sentencesCount := sentences.length
                sentencesView := renderView s.nameInput sentences
                activeFiltersText := activeFiltersParts s.currentFilters }, eff)
  | _ => ({ s with sentencesView := .loadError }, eff)

/-- Embeds `loadInitialData` (lines 64-67): users first, then sentences. -/
def loadInitialData (s : AppState) (ures : FetchOutcome (List String))
    (sres : FetchOutcome (List Sentence)) : AppState × List Effect :=
  let r1 := loadUsersForFilter s ures
  let r2 := fetchAndRenderSentences r1.1 sres
  (r2.1, r1.2 ++ r2.2)

/-- A key of `currentFilters`, as passed to `handleFilterChange`. -/
inductive FilterKey where
  | category
  | user
  | sortBy
  | search
deriving Repr, DecidableEq

/-- Embeds `this.currentFilters[key] = value` (line 97). -/
def setFilter (f : FilterState) : FilterKey → String → FilterState
  | .category, v => { f with category := v }
  | .user, v => { f with user := v }
  | .sortBy, v => { f with sortBy := v }
  | .search, v => { f with search := v }

/-- Embeds `handleFilterChange` (lines 96-99). -/
def handleFilterChange (s : AppState) (key : FilterKey) (value : String)
    (res : FetchOutcome (List Sentence)) : AppState × List Effect :=
  fetchAndRenderSentences { s with currentFilters := setFilter s.currentFilters key value } res

/-- Embeds `clearAllFilters` (lines 101-114): reset the filter state and the four
filter controls, then refetch. -/
def clearAllFilters (s : AppState) (res : FetchOutcome (List Sentence)) :
    AppState × List Effect :=
  fetchAndRenderSentences
    { s with currentFilters := defaultFilters
             categoryFilterValue := "all"
             userFilterValue := "all"
             sortByValue := "newest"
             searchInput := "" } res

/-- Embeds `addSentence` (lines 136-179).  The `finally` block (lines 175-178)
restores the button on every path past validation; the success path awaits
`loadInitialData`, whose two fetches catch their own errors and never
throw. -/
def addSentence (s : AppState) (out : RequestOutcome)
    (ures : FetchOutcome (List String)) (sres : FetchOutcome (List Sentence)) :
    AppState × List Effect :=
  let text := jsTrim s.sentenceInput
  let name := jsTrim s.nameInput
  let category := s.categorySelect
  if text = "" ∨ name = "" then
    (s, [Effect.alert "Your message cannot be empty."])
  else
    let s0 := { s with addBtnLabel := "Adding...", addBtnDisabled := true }
    let post := Effect.postRequest "/api/sentences" text name category
    let r : AppState × List Effect :=
      match out with
      | .reply status errorField =>
        if respOk status then
          loadInitialData { s0 with sentenceInput := "", categorySelect := "thoughts" } ures sres
        else if status = 401 then
          (s0, [Effect.alert "You must be logged in to post a message. Redirecting to login.",
                Effect.navigate "/auth/login"])
        else
          (s0, [Effect.alert ("Error creating message: "
                  ++ jsOrElse errorField "Failed to add message.")])
      | .networkFailure msg =>
          (s0, [Effect.alert ("Error creating message: " ++ msg)])
    ({ r.1 with addBtnLabel := "Add", addBtnDisabled := false }, post :: r.2)

/-- Embeds `deleteSentence` (lines 183-211): ask for confirmation, return at once if
declined; otherwise send the delete and dispatch on the outcome. -/
def deleteSentence (s : AppState) (confirmed : Bool) (id : String)
    (out : RequestOutcome) (ures : FetchOutcome (List String))
    (sres : FetchOutcome (List Sentence)) : AppState × List Effect :=
  let cd := Effect.confirmDialog
    "Are you sure you want to delete this message? This action is permanent."
  if confirmed = false then
    (s, [cd])
  else
    let del := Effect.deleteRequest ("/api/sentences/" ++ id)
    let r : AppState × List Effect :=
      match out with
      | .reply status errorField =>
        if respOk status then
          loadInitialData s ures sres
        else if status = 403 then
          (s, [Effect.alert
            "You can only delete your own messages. This message belongs to another user."])
        else if status = 401 then
          (s, [Effect.alert "You must be logged in to delete a message. Redirecting to login.",
               Effect.navigate "/auth/login"])
        else
          (s, [Effect.alert ("Error deleting message: "
                 ++ jsOrElse errorField "Failed to delete message")])
      | .networkFailure msg =>
          (s, [Effect.alert ("Error deleting message: " ++ msg)])
    (r.1, cd :: del :: r.2)

/-- One user-visible or runtime event the controller reacts to, carrying the
outcome of each network call the triggered handler awaits.  The `type...`
events model typing in a field (the control's value changes; no handler of
this controller runs, except that search input also drives the debounce
timer, modelled separately below). -/
inductive AppEvent where
  | pageLoad (ures : FetchOutcome (List String)) (sres : FetchOutcome (List Sentence))
  | typeName (v : String)
  | typeSentence (v : String)
  | typeSearch (v : String)
  | selectCategory (v : String)
  | categoryFilterChange (v : String) (res : FetchOutcome (List Sentence))
  | userFilterChange (v : String) (res : FetchOutcome (List Sentence))
  | sortByChange (v : String) (res : FetchOutcome (List Sentence))
  | searchDebounceFire (res : FetchOutcome (List Sentence))
  | clearFiltersClick (res : FetchOutcome (List Sentence))
  | submitClick (out : RequestOutcome) (ures : FetchOutcome (List String))
      (sres : FetchOutcome (List Sentence))
  | deleteClick (confirmed : Bool) (id : String) (out : RequestOutcome)
      (ures : FetchOutcome (List String)) (sres : FetchOutcome (List Sentence))
deriving Repr

/-- Dispatch of the event listeners registered in `init` (lines 35-60) plus
the initial data load. -/
def step (s : AppState) (e : AppEvent) : AppState × List Effect :=
  match e with
  | .pageLoad ures sres => loadInitialData s ures sres
  | .typeName v => ({ s with nameInput := v }, [])
  | .typeSentence v => ({ s with sentenceInput := v }, [])
  | .typeSearch v => ({ s with searchInput := v }, [])
  | .selectCategory v => ({ s with categorySelect := v }, [])
  | .categoryFilterChange v res =>
      handleFilterChange { s with categoryFilterValue := v } .category v res
  | .userFilterChange v res =>
      handleFilterChange { s with userFilterValue := v } .user v res
  | .sortByChange v res =>
      handleFilterChange { s with sortByValue := v } .sortBy v res
  | .searchDebounceFire res => handleFilterChange s .search s.searchInput res
  | .clearFiltersClick res => clearAllFilters s res
  | .submitClick out ures sres => addSentence s out ures sres
  | .deleteClick confirmed id out ures sres =>
      deleteSentence s confirmed id out ures sres

/-- The state component of `step`. -/
def stepState (s : AppState) (e : AppEvent) : AppState := (step s e).1

/-- The controller state after the page loads and the given events happen in
order. -/
def runApp (es : List AppEvent) : AppState := es.foldl stepState initState

/-!
Debounce model for the search listener (lines 51-56): the runtime's timer
table is explicit, so that "`clearTimeout` cancels the previous timer" is a
theorem rather than an assumption.  `searchTimeout` holds the handle stored in
`this.searchTimeout`; `lastKeystroke` is a history variable (time and value of
the most recent input event) used to state the quiet-window property.
-/

/-- State of the search field, its debounce timer and the runtime timer
table. -/
structure DebounceState where
  timers : List (Nat × Nat)
  searchTimeout : Option Nat
  nextId : Nat
  searchValue : String
  lastKeystroke : Option (Nat × String)
  fetches : List String
deriving Repr, DecidableEq

/-- An input event in the search field at time `t` (the field then reads
`v`), or the runtime clock reaching time `t`, at which a timer whose deadline
has passed fires. -/
inductive DebounceEvent where
  | input (t : Nat) (v : String)
  | tick (t : Nat)
deriving Repr, DecidableEq

/-- Embeds `clearTimeout(this.searchTimeout)` (line 52): remove the timer with the
stored handle, if any, from the runtime table. -/
def cancelStored (timers : List (Nat × Nat)) (handle : Option Nat) : List (Nat × Nat) :=
  match handle with
  | none => timers
  | some h => timers.filter (fun p => p.1 ≠ h)

/-- One debounce transition.  An input event runs lines 52-55: cancel the
stored timer, register a fresh 300ms timer whose callback will read
`searchInput.value`, store its handle.  A tick fires one expired timer: its
callback calls `handleFilterChange` with the search value read at that
moment, issuing one fetch. -/
def debounceStep (s : DebounceState) (e : DebounceEvent) : DebounceState :=
  match e with
  | .input t v =>
      { s with searchValue := v
               timers := cancelStored s.timers s.searchTimeout ++ [(s.nextId, t + 300)]
               searchTimeout := some s.nextId
               nextId := s.nextId + 1
               lastKeystroke := some (t, v) }
  | .tick t =>
      match s.timers.find? (fun p => decide (p.2 ≤ t)) with
      | some p =>
          { s with timers := s.timers.filter (fun q => q.1 ≠ p.1)
                   fetches := s.fetches ++ [s.searchValue] }
      | none => s

/-- The debounce state before any typing. -/
def debounceInit : DebounceState :=
  { timers := [], searchTimeout := none, nextId := 0, searchValue := ""
    lastKeystroke := none, fetches := [] }

/-- The debounce state after the given events. -/
def debounceRun (es : List DebounceEvent) : DebounceState :=
  es.foldl debounceStep debounceInit

/-- The number of input events in a debounce trace. -/
def inputCount (es : List DebounceEvent) : Nat :=
  (es.filter (fun e => match e with | .input _ _ => true | .tick _ => false)).length

/-- A sample sentence used to instantiate universally quantified theorems. -/
def sampleSentence : Sentence :=
  { mongoId := "id1", text := "hello", name := "bob", category := "thoughts"
    createdAt := "2024-01-01T00:00:00Z" }

/-- A controller state with a nonempty message and name typed in. -/
def filledState : AppState :=
  { initState with sentenceInput := "hi", nameInput := "bob" }

/-- Claim C1: for every filter state, the read request built by
`fetchAndRenderSentences` carries exactly the four query keys category, user,
sortBy and search, in that order, each bound to the controller's current
value for that field, and no other keys. -/
theorem read_request_has_exactly_four_keys (s : AppState)
    (res : FetchOutcome (List Sentence)) :
    ∃ ps, (fetchAndRenderSentences s res).2 = [Effect.getRequest "/api/sentences" ps] ∧
      ps.map Prod.fst = ["category", "user", "sortBy", "search"] ∧
      ps = [("category", s.currentFilters.category), ("user", s.currentFilters.user),
            ("sortBy", s.currentFilters.sortBy), ("search", s.currentFilters.search)] := by
  refine ⟨sentencesQueryParams s.currentFilters, ?_, rfl, rfl⟩
  cases res <;> rfl

/-- Claim C2: if the trimmed message text or the trimmed name is empty,
`addSentence` shows one alert, issues no network request and leaves the
controller state unchanged; otherwise it sends the create request. -/
theorem submit_validation (s : AppState) (out : RequestOutcome)
    (ures : FetchOutcome (List String)) (sres : FetchOutcome (List Sentence)) :
    (jsTrim s.sentenceInput = "" ∨ jsTrim s.nameInput = "" →
      (addSentence s out ures sres).1 = s ∧
      (addSentence s out ures sres).2 = [Effect.alert "Your message cannot be empty."] ∧
      ((addSentence s out ures sres).2.filter Effect.isNetworkRequest) = []) ∧
    (¬(jsTrim s.sentenceInput = "" ∨ jsTrim s.nameInput = "") →
      Effect.postRequest "/api/sentences" (jsTrim s.sentenceInput) (jsTrim s.nameInput) s.categorySelect
        ∈ (addSentence s out ures sres).2) := by
  constructor
  · intro h
    simp only [addSentence]
    rw [if_pos h]
    exact ⟨rfl, rfl, rfl⟩
  · intro h
    simp only [addSentence]
    rw [if_neg h]
    exact List.mem_cons_self _ _

/-- Instantiation of `submit_validation` at concrete inputs: an empty message
is rejected without a request, and a filled form sends the create request. -/
theorem submit_validation_witness :
    ((addSentence initState (.reply 200 none) (.ok []) (.ok [])).1 = initState ∧
      (addSentence initState (.reply 200 none) (.ok []) (.ok [])).2
        = [Effect.alert "Your message cannot be empty."] ∧
      ((addSentence initState (.reply 200 none) (.ok []) (.ok [])).2.filter
        Effect.isNetworkRequest) = []) ∧
    Effect.postRequest "/api/sentences" (jsTrim "hi") (jsTrim "bob") "thoughts"
      ∈ (addSentence filledState (.reply 201 none) (.ok []) (.ok [])).2 := by
  constructor
  · exact (submit_validation initState (.reply 200 none) (.ok []) (.ok [])).1 (Or.inl rfl)
  · exact (submit_validation filledState (.reply 201 none) (.ok []) (.ok [])).2 (by decide)

/-- The rendered item list has one entry per fetched sentence. -/
theorem renderList_length (u : String) (L : List Sentence) :
    (renderList u L).length = L.length := List.length_map _ _

/-- Claim C3: in the rendered list, the item built for a fetched sentence
carries a delete control exactly when that sentence's stored author name
equals the value of the name field at render time, compared as-is. -/
theorem delete_control_iff_author (currentUser : String) (sentences : List Sentence)
    (i : Nat) (h : i < sentences.length) :
    ((renderList currentUser sentences).get
        ⟨i, (renderList_length currentUser sentences).symm ▸ h⟩).hasDeleteBtn = true ↔
      (sentences.get ⟨i, h⟩).name = currentUser := by
  simp [renderList, renderItem]

/-- Instantiation of `delete_control_iff_author`: the sample sentence authored
by bob gets a delete control when the name field reads bob. -/
theorem delete_control_iff_author_witness :
    ((renderList "bob" [sampleSentence]).get ⟨0, by decide⟩).hasDeleteBtn = true :=
  (delete_control_iff_author "bob" [sampleSentence] 0 (by decide)).mpr rfl

/-- Claim C7: on every path of `addSentence` past local validation — success,
401, other non-2xx, or a rejected fetch — the submit button ends re-enabled
with its label restored to Add. -/
theorem submit_button_restored (s : AppState) (out : RequestOutcome)
    (ures : FetchOutcome (List String)) (sres : FetchOutcome (List Sentence))
    (hv : ¬(jsTrim s.sentenceInput = "" ∨ jsTrim s.nameInput = "")) :
    (addSentence s out ures sres).1.addBtnDisabled = false ∧
    (addSentence s out ures sres).1.addBtnLabel = "Add" := by
  simp only [addSentence]
  rw [if_neg hv]
  exact ⟨rfl, rfl⟩

/-- Instantiation of `submit_button_restored` at a rejected fetch. -/
theorem submit_button_restored_witness :
    (addSentence filledState (.networkFailure "boom") (.ok []) (.ok [])).1.addBtnDisabled
        = false ∧
      (addSentence filledState (.networkFailure "boom") (.ok []) (.ok [])).1.addBtnLabel
        = "Add" :=
  submit_button_restored filledState (.networkFailure "boom") (.ok []) (.ok []) (by decide)

/-- Claim C10: declining the confirmation dialog in `deleteSentence` performs
no network request and leaves the whole controller state unchanged; the only
effect is the dialog itself. -/
theorem delete_declined_is_noop (s : AppState) (id : String) (out : RequestOutcome)
    (ures : FetchOutcome (List String)) (sres : FetchOutcome (List Sentence)) :
    (deleteSentence s false id out ures sres).1 = s ∧
    (deleteSentence s false id out ures sres).2
      = [Effect.confirmDialog
          "Are you sure you want to delete this message? This action is permanent."] ∧
    ((deleteSentence s false id out ures sres).2.filter Effect.isNetworkRequest) = [] := by
  exact ⟨rfl, rfl, rfl⟩

/-- The two read requests issued by `loadInitialData`, in order: the user
list, then the sentence list with the current filters. -/
theorem loadInitialData_effects (s : AppState) (ures : FetchOutcome (List String))
    (sres : FetchOutcome (List Sentence)) :
    (loadInitialData s ures sres).2
      = [Effect.getRequest "/api/sentences/users" [],
         Effect.getRequest "/api/sentences" (sentencesQueryParams s.currentFilters)] := by
  cases ures <;> cases sres <;> rfl

/-- Claim C4: after a 2xx response to the create request or to the delete
request, the controller re-fetches both the user list endpoint and the
sentence list endpoint. -/
theorem success_reloads_users_and_sentences (s : AppState) (status : Nat)
    (errF : Option String) (id : String) (ures : FetchOutcome (List String))
    (sres : FetchOutcome (List Sentence))
    (hok : respOk status)
    (hv : ¬(jsTrim s.sentenceInput = "" ∨ jsTrim s.nameInput = "")) :
    (Effect.getRequest "/api/sentences/users" []
        ∈ (addSentence s (.reply status errF) ures sres).2 ∧
      ∃ ps, Effect.getRequest "/api/sentences" ps
        ∈ (addSentence s (.reply status errF) ures sres).2) ∧
    (Effect.getRequest "/api/sentences/users" []
        ∈ (deleteSentence s true id (.reply status errF) ures sres).2 ∧
      ∃ ps, Effect.getRequest "/api/sentences" ps
        ∈ (deleteSentence s true id (.reply status errF) ures sres).2) := by
  constructor
  · simp only [addSentence]
    rw [if_neg hv]
    rw [if_pos hok, loadInitialData_effects]
    exact ⟨by simp, ⟨sentencesQueryParams s.currentFilters, by simp⟩⟩
  · simp only [deleteSentence]
    rw [if_pos hok, loadInitialData_effects]
    exact ⟨by simp, ⟨sentencesQueryParams s.currentFilters, by simp⟩⟩

/-- Instantiation of `success_reloads_users_and_sentences` at a 200 create
from a filled form. -/
theorem success_reloads_users_and_sentences_witness :
    Effect.getRequest "/api/sentences/users" []
      ∈ (addSentence filledState (.reply 200 none) (.ok []) (.ok [])).2 :=
  ((success_reloads_users_and_sentences filledState 200 none "abc" (.ok []) (.ok [])
      (by decide) (by decide)).1).1

/-- Claim C6: a 401 response to the create or the delete request makes the
controller alert and navigate to the fixed login route, and the only network
request of the whole call is the original create (resp. delete) request. -/
theorem unauthorized_navigates_login (s : AppState) (errF : Option String) (id : String)
    (ures : FetchOutcome (List String)) (sres : FetchOutcome (List Sentence))
    (hv : ¬(jsTrim s.sentenceInput = "" ∨ jsTrim s.nameInput = "")) :
    (Effect.navigate "/auth/login" ∈ (addSentence s (.reply 401 errF) ures sres).2 ∧
      Effect.alert "You must be logged in to post a message. Redirecting to login."
        ∈ (addSentence s (.reply 401 errF) ures sres).2 ∧
      ((addSentence s (.reply 401 errF) ures sres).2.filter Effect.isNetworkRequest)
        = [Effect.postRequest "/api/sentences" (jsTrim s.sentenceInput)
            (jsTrim s.nameInput) s.categorySelect]) ∧
    (Effect.navigate "/auth/login" ∈ (deleteSentence s true id (.reply 401 errF) ures sres).2 ∧
      Effect.alert "You must be logged in to delete a message. Redirecting to login."
        ∈ (deleteSentence s true id (.reply 401 errF) ures sres).2 ∧
      ((deleteSentence s true id (.reply 401 errF) ures sres).2.filter Effect.isNetworkRequest)
        = [Effect.deleteRequest ("/api/sentences/" ++ id)]) := by
  constructor
  · simp only [addSentence]
    rw [if_neg hv]
    rw [if_neg (by decide : ¬ respOk 401)]
    simp [Effect.isNetworkRequest]
  · simp only [deleteSentence]
    rw [if_neg (by decide : ¬ respOk 401), if_neg (by decide : (401 : Nat) ≠ 403)]
    simp [Effect.isNetworkRequest]

/-- Instantiation of `unauthorized_navigates_login` at a 401 create from a
filled form. -/
theorem unauthorized_navigates_login_witness :
    Effect.navigate "/auth/login"
      ∈ (addSentence filledState (.reply 401 none) (.ok []) (.ok [])).2 :=
  ((unauthorized_navigates_login filledState none "abc" (.ok []) (.ok [])
      (by decide)).1).1

/-- Claim C8: a create response with a non-2xx status other than 401 produces
exactly one alert after the create request; the alert text contains the
`error` field of the response body verbatim when that field is present, and
equals the fixed generic message when it is absent. -/
theorem create_error_alert_verbatim (s : AppState) (status : Nat) (errF : Option String)
    (ures : FetchOutcome (List String)) (sres : FetchOutcome (List Sentence))
    (hv : ¬(jsTrim s.sentenceInput = "" ∨ jsTrim s.nameInput = ""))
    (hnok : ¬ respOk status) (h401 : status ≠ 401) :
    ∃ a, (addSentence s (.reply status errF) ures sres).2
        = [Effect.postRequest "/api/sentences" (jsTrim s.sentenceInput)
             (jsTrim s.nameInput) s.categorySelect,
           Effect.alert a] ∧
      (errF = none → a = "Error creating message: Failed to add message.") ∧
      (∀ m, errF = some m → ∃ pre suf, a = pre ++ (m ++ suf)) := by
  refine ⟨"Error creating message: " ++ jsOrElse errF "Failed to add message.", ?_, ?_, ?_⟩
  · simp only [addSentence]
    rw [if_neg hv]
    rw [if_neg hnok, if_neg h401]
  · intro h; subst h; rfl
  · intro m hm; subst hm
    by_cases hm0 : m = ""
    · subst hm0
      exact ⟨"", "Error creating message: " ++ jsOrElse (some "") "Failed to add message.", rfl⟩
    · refine ⟨"Error creating message: ", "", ?_⟩
      simp [jsOrElse, hm0]

/-- Instantiation of `create_error_alert_verbatim` at a 400 create whose body
carries the error text. -/
theorem create_error_alert_verbatim_witness :
    ∃ a, (addSentence filledState (.reply 400 (some "Message too long")) (.ok []) (.ok [])).2
        = [Effect.postRequest "/api/sentences" (jsTrim "hi") (jsTrim "bob") "thoughts",
           Effect.alert a] ∧
      (some "Message too long" = none →
        a = "Error creating message: Failed to add message.") ∧
      (∀ m, (some "Message too long" : Option String) = some m →
        ∃ pre suf, a = pre ++ (m ++ suf)) :=
  create_error_alert_verbatim filledState 400 (some "Message too long") (.ok []) (.ok [])
    (by decide) (by decide) (by decide)

/-- The rendering invariant relating the visible list to the last successful
sentence fetch: whenever the list shows items, they are exactly the rendered
last fetch result (nonempty, in order, rendered for some value of the name
field), the empty-state entry appears exactly for an empty fetch result, and
`allSentences` always holds the last fetched array unchanged. -/
def ViewInv (s : AppState) : Prop :=
  (∀ l, s.sentencesView = .items l →
    ∃ u L, s.lastFetched = some L ∧ L ≠ [] ∧ l = renderList u L) ∧
  (s.sentencesView = .emptyState → s.lastFetched = some []) ∧
  (∀ L, s.lastFetched = some L → s.allSentences = L)

/-- The predicate `ViewInv` only depends on the view, the fetch history and the stored
array. -/
theorem viewInv_congr (s t : AppState) (hv : t.sentencesView = s.sentencesView)
    (hl : t.lastFetched = s.lastFetched) (ha : t.allSentences = s.allSentences)
    (h : ViewInv s) : ViewInv t := by
  obtain ⟨h1, h2, h3⟩ := h
  refine ⟨?_, ?_, ?_⟩
  · intro l hil
    rw [hv] at hil
    obtain ⟨u, L, hL, hne, hren⟩ := h1 l hil
    exact ⟨u, L, by rw [hl]; exact hL, hne, hren⟩
  · intro hes
    rw [hv] at hes
    rw [hl]
    exact h2 hes
  · intro L hL
    rw [hl] at hL
    rw [ha]
    exact h3 L hL

/-- The operation `fetchAndRenderSentences` preserves the rendering invariant: a successful
fetch re-establishes it and a failed fetch shows the error entry without
touching the stored data. -/
theorem viewInv_fetchAndRender (s : AppState) (res : FetchOutcome (List Sentence))
    (h : ViewInv s) : ViewInv (fetchAndRenderSentences s res).1 := by
  obtain ⟨h1, h2, h3⟩ := h
  cases res with
  | ok L =>
    refine ⟨?_, ?_, ?_⟩
    · intro l hil
      simp only [fetchAndRenderSentences, renderView] at hil
      by_cases hL : L = []
      · rw [if_pos hL] at hil
        exact absurd hil (by simp)
      · rw [if_neg hL] at hil
        have : l = renderList s.nameInput L := by
          cases hil
          rfl
        exact ⟨s.nameInput, L, rfl, hL, this⟩
    · intro hes
      simp only [fetchAndRenderSentences, renderView] at hes ⊢
      by_cases hL : L = []
      · rw [hL]
      · rw [if_neg hL] at hes
        exact absurd hes (by simp)
    · intro L' hL'
      simp only [fetchAndRenderSentences] at hL' ⊢
      cases hL'
      rfl
  | httpError status =>
    refine ⟨?_, ?_, fun L hL => h3 L hL⟩
    · intro l hil
      exact absurd hil (by simp [fetchAndRenderSentences])
    · intro hes
      exact absurd hes (by simp [fetchAndRenderSentences])
  | networkFailure =>
    refine ⟨?_, ?_, fun L hL => h3 L hL⟩
    · intro l hil
      exact absurd hil (by simp [fetchAndRenderSentences])
    · intro hes
      exact absurd hes (by simp [fetchAndRenderSentences])

/-- The operation `loadUsersForFilter` does not touch the view, the fetch history or the
stored sentence array. -/
theorem viewInv_loadUsers (s : AppState) (ures : FetchOutcome (List String))
    (h : ViewInv s) : ViewInv (loadUsersForFilter s ures).1 := by
  cases ures with
  | ok users => exact viewInv_congr s _ rfl rfl rfl h
  | httpError status => exact h
  | networkFailure => exact h

/-- The operation `loadInitialData` preserves the rendering invariant. -/
theorem viewInv_loadInitial (s : AppState) (ures : FetchOutcome (List String))
    (sres : FetchOutcome (List Sentence)) (h : ViewInv s) :
    ViewInv (loadInitialData s ures sres).1 :=
  viewInv_fetchAndRender _ sres (viewInv_loadUsers s ures h)

/-- Every controller event preserves the rendering invariant. -/
theorem viewInv_step (s : AppState) (e : AppEvent) (h : ViewInv s) :
    ViewInv (stepState s e) := by
  cases e with
  | pageLoad ures sres => exact viewInv_loadInitial s ures sres h
  | typeName v => exact viewInv_congr s _ rfl rfl rfl h
  | typeSentence v => exact viewInv_congr s _ rfl rfl rfl h
  | typeSearch v => exact viewInv_congr s _ rfl rfl rfl h
  | selectCategory v => exact viewInv_congr s _ rfl rfl rfl h
  | categoryFilterChange v res =>
      exact viewInv_fetchAndRender _ res (viewInv_congr s _ rfl rfl rfl h)
  | userFilterChange v res =>
      exact viewInv_fetchAndRender _ res (viewInv_congr s _ rfl rfl rfl h)
  | sortByChange v res =>
      exact viewInv_fetchAndRender _ res (viewInv_congr s _ rfl rfl rfl h)
  | searchDebounceFire res =>
      exact viewInv_fetchAndRender _ res (viewInv_congr s _ rfl rfl rfl h)
  | clearFiltersClick res =>
      exact viewInv_fetchAndRender _ res (viewInv_congr s _ rfl rfl rfl h)
  | submitClick out ures sres =>
      cases out with
      | reply status errF =>
        simp only [stepState, step, addSentence]
        by_cases hv : jsTrim s.sentenceInput = "" ∨ jsTrim s.nameInput = ""
        · rw [if_pos hv]
          exact h
        · rw [if_neg hv]
          by_cases hok : respOk status
          · rw [if_pos hok]
            exact viewInv_congr _ _ rfl rfl rfl
              (viewInv_loadInitial _ ures sres (viewInv_congr s _ rfl rfl rfl h))
          · rw [if_neg hok]
            by_cases h401 : status = 401
            · rw [if_pos h401]
              exact viewInv_congr s _ rfl rfl rfl h
            · rw [if_neg h401]
              exact viewInv_congr s _ rfl rfl rfl h
      | networkFailure msg =>
        simp only [stepState, step, addSentence]
        by_cases hv : jsTrim s.sentenceInput = "" ∨ jsTrim s.nameInput = ""
        · rw [if_pos hv]
          exact h
        · rw [if_neg hv]
          exact viewInv_congr s _ rfl rfl rfl h
  | deleteClick confirmed id out ures sres =>
      cases out with
      | reply status errF =>
        simp only [stepState, step, deleteSentence]
        by_cases hc : confirmed = false
        · rw [if_pos hc]
          exact h
        · rw [if_neg hc]
          by_cases hok : respOk status
          · rw [if_pos hok]
            exact viewInv_loadInitial s ures sres h
          · rw [if_neg hok]
            by_cases h403 : status = 403
            · rw [if_pos h403]
              exact h
            · rw [if_neg h403]
              by_cases h401 : status = 401
              · rw [if_pos h401]
                exact h
              · rw [if_neg h401]
                exact h
      | networkFailure msg =>
        simp only [stepState, step, deleteSentence]
        by_cases hc : confirmed = false
        · rw [if_pos hc]
          exact h
        · rw [if_neg hc]
          exact h

/-- The initial state satisfies the rendering invariant. -/
theorem viewInv_init : ViewInv initState := by
  refine ⟨?_, ?_, ?_⟩
  · intro l hil
    exact absurd hil (by simp [initState])
  · intro hes
    exact absurd hes (by simp [initState])
  · intro L hL
    exact absurd hL (by simp [initState])

/-- The rendering invariant holds in every reachable controller state. -/
theorem viewInv_runApp (es : List AppEvent) : ViewInv (runApp es) := by
  have key : ∀ s, ViewInv s → ViewInv (es.foldl stepState s) := by
    induction es with
    | nil => exact fun s h => h
    | cons e tl ih => exact fun s h => ih (stepState s e) (viewInv_step s e h)
  exact key initState viewInv_init

/-- Events reaching a state whose list shows the fetch-error entry while the
last successful fetch returned one sentence. -/
def crashEvents : List AppEvent :=
  [.pageLoad (.ok []) (.ok [sampleSentence]),
   .categoryFilterChange "jokes" .networkFailure]

/-- Claim C5 as stated is false: after a successful fetch of one sentence
followed by a failed fetch, the rendered list is the fetch-error entry, not
the array returned by the last successful fetch. -/
theorem rendered_list_invariant_counterexample :
    ¬ (∀ s : AppState, (∃ es, runApp es = s) →
        ∀ L, s.lastFetched = some L → ∃ u, s.sentencesView = renderView u L) := by
  intro h
  obtain ⟨u, hu⟩ := h (runApp crashEvents) ⟨crashEvents, rfl⟩ [sampleSentence] (by rfl)
  rw [show (runApp crashEvents).sentencesView = .loadError from rfl] at hu
  simp only [renderView] at hu
  rw [if_neg (by simp : ¬([sampleSentence] = []))] at hu
  exact SentencesView.noConfusion hu

/-- Claim C5 (amended): in every reachable controller state, whenever the
list shows sentence items they are exactly the array returned by the last
successful fetch, rendered in order with no element added, removed or
reordered; the empty-state entry appears exactly when that fetch returned the
empty array; and the stored array always equals the last fetched one.  (A
failed fetch instead replaces the list with the error entry, the one case the
original claim missed.) -/
theorem rendered_list_matches_last_fetch (s : AppState) (h : ∃ es, runApp es = s) :
    (∀ l, s.sentencesView = .items l →
      ∃ u L, s.lastFetched = some L ∧ L ≠ [] ∧ l = renderList u L) ∧
    (s.sentencesView = .emptyState → s.lastFetched = some []) ∧
    (∀ L, s.lastFetched = some L → s.allSentences = L) := by
  obtain ⟨es, rfl⟩ := h
  exact viewInv_runApp es

/-- Events performing one successful initial load of one sentence. -/
def goodEvents : List AppEvent := [.pageLoad (.ok []) (.ok [sampleSentence])]

/-- Instantiation of `rendered_list_matches_last_fetch` after one successful
load: the rendered items come from the fetched singleton array. -/
theorem rendered_list_matches_last_fetch_witness :
    ∃ u L, (runApp goodEvents).lastFetched = some L ∧ L ≠ [] ∧
      renderList "" [sampleSentence] = renderList u L :=
  (rendered_list_matches_last_fetch (runApp goodEvents) ⟨goodEvents, rfl⟩).1
    (renderList "" [sampleSentence]) (by rfl)

/-- Invariant of the debounce machine: at most one pending timer; every
pending timer is the one whose handle is stored in `searchTimeout` and was
allocated earlier than `nextId`; and every pending timer fires 300ms after
the most recent keystroke, whose value is the current field value. -/
def DebounceInv (s : DebounceState) : Prop :=
  s.timers.length ≤ 1 ∧
  (∀ p ∈ s.timers, s.searchTimeout = some p.1 ∧ p.1 < s.nextId) ∧
  (∀ p ∈ s.timers, ∃ tk vk, s.lastKeystroke = some (tk, vk) ∧
    p.2 = tk + 300 ∧ s.searchValue = vk)

/-- When every pending timer carries the stored handle and at most one is
pending, `clearTimeout` empties the table. -/
theorem cancelStored_self (l : List (Nat × Nat)) (h : Option Nat) (h1 : l.length ≤ 1)
    (h2 : ∀ p ∈ l, h = some p.1) : cancelStored l h = [] := by
  match l with
  | [] => cases h <;> rfl
  | [p] =>
    have hp := h2 p (List.mem_cons_self _ _)
    rw [hp]
    simp [cancelStored]
  | p :: q :: tl => simp at h1

/-- Every debounce event preserves the invariant. -/
theorem debounceInv_step (s : DebounceState) (e : DebounceEvent)
    (h : DebounceInv s) : DebounceInv (debounceStep s e) := by
  obtain ⟨h1, h2, h3⟩ := h
  cases e with
  | input t v =>
    have hc : cancelStored s.timers s.searchTimeout = [] :=
      cancelStored_self s.timers s.searchTimeout h1 (fun p hp => (h2 p hp).1)
    refine ⟨?_, ?_, ?_⟩ <;> simp only [debounceStep, hc, List.nil_append]
    · simp
    · intro p hp
      simp only [List.mem_singleton] at hp
      subst hp
      exact ⟨rfl, Nat.lt_succ_self _⟩
    · intro p hp
      simp only [List.mem_singleton] at hp
      subst hp
      exact ⟨t, v, rfl, rfl, rfl⟩
  | tick t =>
    cases hf : s.timers.find? (fun p => decide (p.2 ≤ t)) with
    | none =>
      simp only [debounceStep, hf]
      exact ⟨h1, h2, h3⟩
    | some p =>
      simp only [debounceStep, hf]
      refine ⟨?_, ?_, ?_⟩
      · exact le_trans (List.length_filter_le _ _) h1
      · intro q hq
        exact h2 q (List.mem_of_mem_filter hq)
      · intro q hq
        exact h3 q (List.mem_of_mem_filter hq)

/-- The invariant holds after any event sequence. -/
theorem debounceInv_run (es : List DebounceEvent) : DebounceInv (debounceRun es) := by
  have key : ∀ s, DebounceInv s → DebounceInv (es.foldl debounceStep s) := by
    induction es with
    | nil => exact fun s h => h
    | cons e tl ih => exact fun s h => ih (debounceStep s e) (debounceInv_step s e h)
  refine key debounceInit ⟨by simp [debounceInit], ?_, ?_⟩ <;>
    intro p hp <;> simp [debounceInit] at hp

/-- Fetches plus pending timers never exceed the keystrokes so far: each
keystroke arms one timer and each fetch consumes one. -/
theorem debounce_fetch_bound_aux (es : List DebounceEvent) (s : DebounceState) :
    (es.foldl debounceStep s).fetches.length + (es.foldl debounceStep s).timers.length
      ≤ s.fetches.length + s.timers.length + inputCount es := by
  induction es generalizing s with
  | nil => simp [inputCount]
  | cons e tl ih =>
    rw [List.foldl_cons]
    have hmain := ih (debounceStep s e)
    cases e with
    | input t v =>
      have hlen : (cancelStored s.timers s.searchTimeout).length ≤ s.timers.length := by
        cases s.searchTimeout with
        | none => exact le_refl _
        | some hdl => exact List.length_filter_le _ _
      have hstep : (debounceStep s (.input t v)).fetches.length
          + (debounceStep s (.input t v)).timers.length
          ≤ s.fetches.length + s.timers.length + 1 := by
        simp only [debounceStep, List.length_append, List.length_singleton]
        omega
      have hcount : inputCount (DebounceEvent.input t v :: tl) = inputCount tl + 1 := by
        simp [inputCount, List.filter]
      rw [hcount]
      omega
    | tick t =>
      have hstep : (debounceStep s (.tick t)).fetches.length
          + (debounceStep s (.tick t)).timers.length
          ≤ s.fetches.length + s.timers.length := by
        cases hf : s.timers.find? (fun p => decide (p.2 ≤ t)) with
        | none => simp [debounceStep, hf]
        | some p =>
          have hmem : p ∈ s.timers := List.mem_of_find?_eq_some hf
          have hlt : (s.timers.filter (fun q => decide (q.1 ≠ p.1))).length
              < s.timers.length := by
            have hdrop : ¬ (fun q => decide (q.1 ≠ p.1)) p = true := by simp
            exact List.length_filter_lt_length_iff_exists.mpr ⟨p, hmem, hdrop⟩
          simp only [debounceStep, hf, List.length_append, List.length_singleton]
          omega
      have hcount : inputCount (DebounceEvent.tick t :: tl) = inputCount tl := by
        simp [inputCount, List.filter]
      rw [hcount]
      omega

/-- Claim C9: in any sequence of search-field events, at most one debounce
timer is ever pending; a new keystroke cancels every pending timer; a fetch
fires only when a pending timer's deadline — set 300ms after the most recent
keystroke — has passed, and it carries the search value present at that
moment, which is the last keystroke's value; and the number of fetches (plus
the still-pending timer) never exceeds the number of keystrokes, so each
quiet window yields at most one fetch. -/
theorem debounce_claim (es : List DebounceEvent) :
    (debounceRun es).timers.length ≤ 1 ∧
    (∀ t v p, p ∈ (debounceRun es).timers →
      p ∉ (debounceStep (debounceRun es) (.input t v)).timers) ∧
    (∀ t id d, (debounceRun es).timers = [(id, d)] → d ≤ t →
      ∃ tk vk, (debounceRun es).lastKeystroke = some (tk, vk) ∧
        d = tk + 300 ∧ tk + 300 ≤ t ∧ (debounceRun es).searchValue = vk ∧
        (debounceStep (debounceRun es) (.tick t)).fetches
          = (debounceRun es).fetches ++ [vk] ∧
        (debounceStep (debounceRun es) (.tick t)).timers = []) ∧
    (debounceRun es).fetches.length + (debounceRun es).timers.length ≤ inputCount es := by
  obtain ⟨h1, h2, h3⟩ := debounceInv_run es
  refine ⟨h1, ?_, ?_, ?_⟩
  · intro t v p hp
    have hlt := (h2 p hp).2
    have hc : cancelStored (debounceRun es).timers (debounceRun es).searchTimeout = [] :=
      cancelStored_self _ _ h1 (fun q hq => (h2 q hq).1)
    simp only [debounceStep, hc, List.nil_append]
    intro hmem
    simp only [List.mem_singleton] at hmem
    rw [hmem] at hlt
    exact absurd hlt (lt_irrefl _)
  · intro t id d htm hle
    obtain ⟨tk, vk, hlk, hd, hv⟩ :=
      h3 (id, d) (by rw [htm]; exact List.mem_cons_self _ _)
    have hf : (debounceRun es).timers.find? (fun p => decide (p.2 ≤ t)) = some (id, d) := by
      rw [htm]
      exact List.find?_cons_of_pos _ (by simpa using hle)
    refine ⟨tk, vk, hlk, hd, hd ▸ hle, hv, ?_, ?_⟩
    · simp only [debounceStep, hf]
      rw [hv]
    · simp only [debounceStep, hf]
      rw [htm]
      simp
  · have := debounce_fetch_bound_aux es debounceInit
    simpa [debounceInit] using this

/-- Instantiation of `debounce_claim`: two keystrokes 100ms apart leave one
timer due 300ms after the second; firing it at that deadline fetches exactly
once, with the final value. -/
theorem debounce_claim_witness :
    ∃ tk vk,
      (debounceRun [.input 0 "a", .input 100 "ab"]).lastKeystroke = some (tk, vk) ∧
      400 = tk + 300 ∧ tk + 300 ≤ 400 ∧
      (debounceRun [.input 0 "a", .input 100 "ab"]).searchValue = vk ∧
      (debounceStep (debounceRun [.input 0 "a", .input 100 "ab"]) (.tick 400)).fetches
        = (debounceRun [.input 0 "a", .input 100 "ab"]).fetches ++ [vk] ∧
      (debounceStep (debounceRun [.input 0 "a", .input 100 "ab"]) (.tick 400)).timers = [] :=
  (debounce_claim [.input 0 "a", .input 100 "ab"]).2.2.1 400 1 400 (by decide) (by decide)

end SentenceBoard
